import Mathlib

/-!
Verification of the internship-posting cleaning and filtering pipeline.

The development shallowly embeds the two normalizer/filter variants of the
repository (`app.py` and `shixiseng.py`):

* missing values (pandas `NaN`) are `Option.none`;
* strings are Lean `String`s, processed through their character lists;
* `re.findall` of digit runs, `re.split` on separator classes, and substring
  tests are implemented as executable character-list scans;
* pandas column assignments and boolean-mask filters become `List.map` and
  `List.filter`;
* the one statement of the filter engine that can raise (`int(...[0])` on an
  empty match list) makes the engine return `Except`.
-/

namespace JobData

/-- pandas `astype(str)` / Python `str(...)` applied to a possibly missing
value: a missing value stringifies to the text `"nan"`. -/
def pdStr : Option String → String
  | none => "nan"
  | some s => s

/-- `re.findall(r'\d+', s)` as character lists: the maximal runs of
consecutive decimal-digit characters, in order.  A digit followed by
another digit is prepended to the run it starts; a digit followed by a
non-digit (or by nothing) opens a fresh run. -/
def digitRunStrs : List Char → List (List Char)
  | [] => []
  | c :: cs =>
    let rest := digitRunStrs cs
    if c.isDigit then
      match cs with
      | [] => [[c]]
      | d :: _ =>
        if d.isDigit then
          match rest with
          | r :: rs => (c :: r) :: rs
          | [] => [[c]]
        else [c] :: rest
    else rest

/-- Python `int` on a run of digit characters. -/
def natOfDigits (l : List Char) : Nat :=
  l.foldl (fun acc c => 10 * acc + (c.toNat - 48)) 0

/-- `re.findall(r'\d+', s)` followed by `int` on each run. -/
def digitRuns (l : List Char) : List Nat :=
  (digitRunStrs l).map natOfDigits

/-- Python `sub in s` (substring containment). -/
def strContains (s sub : String) : Bool :=
  decide (sub.data <:+: s.data)

/-- Python `str.lower()`, character-wise. -/
def lowerStr (s : String) : String := String.mk (s.data.map Char.toLower)

/-- Python `str.upper()`, character-wise. -/
def upperStr (s : String) : String := String.mk (s.data.map Char.toUpper)

/-- Python `str.strip()`: drop whitespace from both ends. -/
def stripStr (s : String) : String :=
  String.mk (((s.data.dropWhile Char.isWhitespace).reverse.dropWhile
    Char.isWhitespace).reverse)

/-- The separator class `[,，、；;\s]+` shared by both welfare splitters
(`re.split`); whitespace characters are separators. -/
def isSep (c : Char) : Bool :=
  c == ',' || c == '，' || c == '、' || c == '；' || c == ';' || c.isWhitespace

/-- `re.split(r'[,，、；;\s]+', s)` followed by dropping empty (stripped)
tokens: the maximal separator-free non-empty segments, in order.  Tokens
contain no separator character, hence no whitespace, so Python's `strip()`
on them is the identity and is folded into the split. -/
def tokenRuns : List Char → List (List Char)
  | [] => []
  | c :: cs =>
    let rest := tokenRuns cs
    if isSep c then rest
    else
      match cs with
      | [] => [[c]]
      | d :: _ =>
        if isSep d then [c] :: rest
        else
          match rest with
          | r :: rs => (c :: r) :: rs
          | [] => [[c]]

/-- The non-empty token texts of `tokenRuns`, in order. -/
def splitTokens (l : List Char) : List String :=
  (tokenRuns l).map String.mk

/-! ### Field parsers, `shixiseng.py` variant -/

/-- `extract_avg_salary` (shixiseng.py): missing text or no digit run gives
`NaN`; two or more runs give `int((n0 + n1) / 2)`; one run gives that run. -/
def extract_avg_salary : Option String → Option Nat
  | none => none
  | some s =>
    match digitRuns s.data with
    | a :: b :: _ => some ((a + b) / 2)
    | [a] => some a
    | [] => none

/-- `clean_duration` (shixiseng.py): missing stays missing; a text with a
digit run is reformatted as `"<run>个月"` (from the run's characters);
otherwise the text passes through unchanged. -/
def clean_duration : Option String → Option String
  | none => none
  | some s =>
    match digitRunStrs s.data with
    | r :: _ => some (String.mk r ++ "个月")
    | [] => some s

/-- `extract_duration_months` (shixiseng.py): integer value of the first
digit run, applied to the already cleaned duration text. -/
def extract_duration_months : Option String → Option Nat
  | none => none
  | some s =>
    match digitRuns s.data with
    | n :: _ => some n
    | [] => none

/-- The canonical-city synonym table of `extract_city` (shixiseng.py), in
source (insertion) order. -/
def city_mapping : List (String × String) :=
  [("北京", "北京"), ("北京市", "北京"), ("上海", "上海"), ("上海市", "上海"),
   ("深圳", "深圳"), ("深圳市", "深圳"), ("广州", "广州"), ("广州市", "广州"),
   ("杭州", "杭州"), ("杭州市", "杭州"), ("成都", "成都"), ("成都市", "成都"),
   ("南京", "南京"), ("南京市", "南京"), ("武汉", "武汉"), ("武汉市", "武汉"),
   ("西安", "西安"), ("西安市", "西安"), ("苏州", "苏州"), ("苏州市", "苏州"),
   ("重庆", "重庆"), ("重庆市", "重庆"), ("天津", "天津"), ("天津市", "天津")]

/-- `extract_city` (shixiseng.py): missing location gives `"未知"`; else the
stripped text is looked up exactly in the table, then by substring over the
keys in table order, and finally falls back to the text itself. -/
def extract_city : Option String → String
  | none => "未知"
  | some l₀ =>
    let l := stripStr l₀
    match city_mapping.lookup l with
    | some v => v
    | none =>
      match city_mapping.find? (fun kv => strContains l kv.1) with
      | some kv => kv.2
      | none => l

/-- `TECH_SKILLS` (shixiseng.py). -/
def TECH_SKILLS : List String :=
  ["Java", "Python", "SQL", "Hadoop", "Spark", "Flink",
   "Hive", "Kafka", "Scala", "C++", "Linux", "MySQL",
   "Redis", "HBase", "Elasticsearch", "Docker", "Kubernetes"]

/-- `extract_skills`, shared shape of both variants: upper-case the
description and keep, in vocabulary order, the keywords whose upper-case
form occurs as a substring.  Missing description gives `[]`. -/
def extract_skills (keywords : List String) : Option String → List String
  | none => []
  | some d =>
    let u := upperStr d
    keywords.filter (fun k => strContains u (upperStr k))

/-- The welfare synonym table of `extract_welfare_tags` (shixiseng.py). -/
def welfare_mapping : List (String × String) :=
  [("转正", "转正机会"), ("转正机会", "转正机会"), ("留用机会", "转正机会"),
   ("房补", "房补"), ("住房补贴", "房补"), ("餐补", "餐补"), ("饭补", "餐补"),
   ("下午茶", "下午茶"), ("零食", "下午茶"), ("周末双休", "周末双休"),
   ("双休", "周末双休"), ("五险一金", "五险一金"), ("五险", "五险一金"),
   ("交通补助", "交通补助"), ("交通补贴", "交通补助"), ("节日福利", "节日福利"),
   ("年终奖", "年终奖"), ("奖金", "年终奖"), ("弹性工作", "弹性工作"),
   ("团建", "团建活动"), ("带薪年假", "带薪年假"), ("定期体检", "定期体检")]

/-- `welfare_mapping.get(tag, tag)`: a token absent from the synonym table
passes through unchanged. -/
def synLookup (t : String) : String :=
  match welfare_mapping.lookup t with
  | some v => v
  | none => t

/-- The accumulation loop of `extract_welfare_tags` (shixiseng.py): map each
token through the synonym table and append it unless already present. -/
def welfareLoop : List String → List String → List String
  | acc, [] => acc
  | acc, t :: ts =>
    let m := synLookup t
    if acc.contains m then welfareLoop acc ts else welfareLoop (acc ++ [m]) ts

/-- `extract_welfare_tags` (shixiseng.py): split, synonym-map, de-duplicate
keeping first occurrences; missing welfare text gives `[]`. -/
def extract_welfare_tags : Option String → List String
  | none => []
  | some s => welfareLoop [] (splitTokens s.data)

/-! ### Field parsers, `app.py` variant -/

/-- `parse_salary` (app.py): the first two digit runs of `str(x)` as
`(low, high)`, a single run doubled, no run giving `(None, None)`. -/
def parse_salary (s : Option String) : Option Nat × Option Nat :=
  match digitRuns (pdStr s).data with
  | a :: b :: _ => (some a, some b)
  | [a] => (some a, some a)
  | [] => (none, none)

/-- The `平均薪资` column of app.py: `(low + high) / 2`, `NaN` filled with
`0`, truncated to an integer. -/
def appAvgSalary (s : Option String) : Nat :=
  match parse_salary s with
  | (some a, some b) => (a + b) / 2
  | _ => 0

/-- The `城市` column of app.py: `astype(str)` then the text before the
first `-` if any, else before the first `·` if any, else the whole text. -/
def appCity (loc : Option String) : String :=
  let s := pdStr loc
  if s.data.contains '-' then String.mk (s.data.takeWhile (fun c => c != '-'))
  else if s.data.contains '·' then String.mk (s.data.takeWhile (fun c => c != '·'))
  else s

/-- `TECH_KEYWORDS` (app.py). -/
def TECH_KEYWORDS : List String :=
  ["Hadoop", "Spark", "Flink", "Python", "Java", "SQL", "Kafka",
   "Hive", "HBase", "Scala", "ETL", "MySQL", "Redis", "Elasticsearch",
   "Docker", "Kubernetes", "Linux", "Shell", "ClickHouse",
   "数据仓库", "数据湖", "实时计算", "离线计算", "MapReduce", "HDFS"]

/-- `standardize_education` (app.py): lower-case `str(edu)` and test the
credential keywords highest first; no match gives `"不限"`. -/
def standardize_education (edu : Option String) : String :=
  let e := lowerStr (pdStr edu)
  if strContains e "博士" then "博士"
  else if strContains e "硕士" || strContains e "研究生" then "硕士"
  else if strContains e "本科" || strContains e "学士" then "本科"
  else if strContains e "大专" || strContains e "专科" then "大专"
  else "不限"

/-- `classify_duration` (app.py). -/
def classify_duration (d : Option String) : String :=
  let s := pdStr d
  if s.data.contains '3' && s.data.contains '月' then "3个月"
  else if s.data.contains '6' && s.data.contains '月' then "6个月"
  else if strContains s "长期" || strContains s "灵活" then "长期实习"
  else "其他"

/-- `extract_welfare` (app.py): split on the separator class and keep the
non-empty stripped tokens; no synonym mapping, no de-duplication. -/
def extract_welfare : Option String → List String
  | none => []
  | some s => splitTokens s.data


/-! ### Data model and record normalizers -/

/-- One raw input row, with the free-text fields the pipeline consumes;
a `none` field is a pandas `NaN`. -/
structure RawRow where
  pid : Nat
  salaryText : Option String
  locationText : Option String
  educationText : Option String
  durationText : Option String
  descriptionText : Option String
  welfareText : Option String
deriving DecidableEq

/-- A cleaned posting of the shixiseng.py normalizer: derived columns are
attached and no row is ever dropped, so `avgSalary` and `durationMonths`
may be missing and `edu` stays the raw text. -/
structure SPosting where
  pid : Nat
  city : String
  edu : Option String
  durationText : Option String
  durationMonths : Option Nat
  avgSalary : Option Nat
  skills : List String
  welfare : List String
deriving DecidableEq

/-- The per-row column derivations of `load_and_clean_data` (shixiseng.py). -/
def cleanRowS (r : RawRow) : SPosting :=
  { pid := r.pid
    city := extract_city r.locationText
    edu := r.educationText
    durationText := clean_duration r.durationText
    durationMonths := extract_duration_months (clean_duration r.durationText)
    avgSalary := extract_avg_salary r.salaryText
    skills := extract_skills TECH_SKILLS r.descriptionText
    welfare := extract_welfare_tags r.welfareText }

/-- `load_and_clean_data` (shixiseng.py): attach the derived columns to
every row; no validity filter is applied. -/
def load_and_clean_dataS (rows : List RawRow) : List SPosting :=
  rows.map cleanRowS

/-- A cleaned posting of the app.py normalizer: `avgSalary` is a plain
integer (`fillna(0).astype(int)`), education and duration are classified. -/
structure AppPosting where
  pid : Nat
  city : String
  eduClass : String
  durClass : String
  avgSalary : Nat
  skills : List String
  welfare : List String
deriving DecidableEq

/-- The per-row column derivations of `load_and_clean_data` (app.py). -/
def cleanRowApp (r : RawRow) : AppPosting :=
  { pid := r.pid
    city := appCity r.locationText
    eduClass := standardize_education r.educationText
    durClass := classify_duration r.durationText
    avgSalary := appAvgSalary r.salaryText
    skills := extract_skills TECH_KEYWORDS r.descriptionText
    welfare := extract_welfare r.welfareText }

/-- `load_and_clean_data` (app.py): attach the derived columns, then drop
the rows failing `平均薪资 > 0` or having an empty city (the `astype(str)`
city is never pandas-missing, so `notna` always holds). -/
def load_and_clean_dataApp (rows : List RawRow) : List AppPosting :=
  (rows.map cleanRowApp).filter (fun p => decide (0 < p.avgSalary) && !(p.city == ""))

/-! ### Filter engine, `shixiseng.py` variant (`filter_data`) -/

/-- The education hierarchy dictionary of `filter_data` (shixiseng.py). -/
def education_hierarchy (e : String) : Option (List String) :=
  if e = "不限" then some ["不限", "大专", "本科", "硕士", "博士"]
  else if e = "大专" then some ["大专", "本科", "硕士", "博士"]
  else if e = "本科" then some ["本科", "硕士", "博士"]
  else if e = "硕士" then some ["硕士", "博士"]
  else if e = "博士" then some ["博士"]
  else none

/-- City clause of `filter_data`: applied only for a non-empty selection. -/
def sCityStep (cities : List String) (l : List SPosting) : List SPosting :=
  if cities.isEmpty then l else l.filter (fun p => cities.contains p.city)

/-- Education clause of `filter_data`: for a selection other than `"全部"`
that is a key of the hierarchy, keep the rows whose raw education text is a
member of the hierarchy list (a missing text is never a member). -/
def sEduStep (education : String) (l : List SPosting) : List SPosting :=
  if education = "全部" then l
  else
    match education_hierarchy education with
    | some allowed =>
      l.filter (fun p =>
        match p.edu with
        | some e => allowed.contains e
        | none => false)
    | none => l

/-- Salary clause of `filter_data`: always applied; a missing `avg_salary`
(`NaN`) fails both pandas comparisons. -/
def sSalaryStep (lo hi : Nat) (l : List SPosting) : List SPosting :=
  l.filter (fun p =>
    match p.avgSalary with
    | some s => decide (lo ≤ s) && decide (s ≤ hi)
    | none => false)

/-- Required-skills clause of `filter_data` (`all`, AND semantics). -/
def sSkillStep (req : List String) (l : List SPosting) : List SPosting :=
  if req.isEmpty then l
  else l.filter (fun p => req.all (fun s => p.skills.contains s))

/-- Welfare clause of `filter_data` (`has_all_welfare`, AND semantics);
the `welfare_tags` column always exists and holds lists here. -/
def sWelfareStep (prefs : List String) (l : List SPosting) : List SPosting :=
  if prefs.isEmpty then l
  else l.filter (fun p => prefs.all (fun w => p.welfare.contains w))

/-- `filter_data` (shixiseng.py).  The duration clause evaluates
`int(re.findall(r'\d+', duration)[0])`; when the selected duration text
contains no digit run the indexing raises, modelled as `Except.error`.
A posting with missing `duration_months` fails the `>=` comparison. -/
def filter_data (df : List SPosting) (cities : List String)
    (education duration : String) (lo hi : Nat)
    (req prefs : List String) : Except String (List SPosting) :=
  let f2 := sEduStep education (sCityStep cities df)
  if duration = "全部" then
    Except.ok (sWelfareStep prefs (sSkillStep req (sSalaryStep lo hi f2)))
  else
    match digitRuns duration.data with
    | [] => Except.error "IndexError: list index out of range"
    | n :: _ =>
      let f3 := f2.filter (fun p =>
        match p.durationMonths with
        | some m => decide (n ≤ m)
        | none => false)
      Except.ok (sWelfareStep prefs (sSkillStep req (sSalaryStep lo hi f3)))

/-! ### Filter engine, `app.py` variant (the `filtered_df` block) -/

/-- City clause of app.py (`if selected_cities: ... isin`). -/
def aCityStep (sel : List String) (l : List AppPosting) : List AppPosting :=
  if sel.isEmpty then l else l.filter (fun p => sel.contains p.city)

/-- Education clause of app.py (set membership over `学历分类`). -/
def aEduStep (sel : List String) (l : List AppPosting) : List AppPosting :=
  if sel.isEmpty then l else l.filter (fun p => sel.contains p.eduClass)

/-- Duration clause of app.py (set membership over `实习时长分类`). -/
def aDurStep (sel : List String) (l : List AppPosting) : List AppPosting :=
  if sel.isEmpty then l else l.filter (fun p => sel.contains p.durClass)

/-- Salary clause of app.py: always applied. -/
def aSalaryStep (lo hi : Nat) (l : List AppPosting) : List AppPosting :=
  l.filter (fun p => decide (lo ≤ p.avgSalary) && decide (p.avgSalary ≤ hi))

/-- Required-skills clause of app.py (`all`, AND semantics). -/
def aSkillStep (req : List String) (l : List AppPosting) : List AppPosting :=
  if req.isEmpty then l
  else l.filter (fun p => req.all (fun s => p.skills.contains s))

/-- Welfare clause of app.py (`any`, OR semantics). -/
def aWelfareStep (prefs : List String) (l : List AppPosting) : List AppPosting :=
  if prefs.isEmpty then l
  else l.filter (fun p => prefs.any (fun w => p.welfare.contains w))

/-- The `filtered_df` computation of app.py: the six clauses in source
order, total on any input. -/
def app_filtered (df : List AppPosting) (cities edu dur : List String)
    (lo hi : Nat) (req prefs : List String) : List AppPosting :=
  aWelfareStep prefs (aSkillStep req (aSalaryStep lo hi
    (aDurStep dur (aEduStep edu (aCityStep cities df)))))


/-! ### Spec-side definitions

These follow the specification's words rather than the source, to be
compared with the source embeddings above. -/

/-- Modelled from the spec: the fixed education ordering
不限 < 大专 < 本科 < 硕士 < 博士, as a rank on the canonical level names. -/
def levelRank (e : String) : Option Nat :=
  if e = "不限" then some 0
  else if e = "大专" then some 1
  else if e = "本科" then some 2
  else if e = "硕士" then some 3
  else if e = "博士" then some 4
  else none

/-- The rank-threshold reading of hierarchical education filtering: a raw
education text passes level rank `rL` when it is exactly a canonical level
name of rank at least `rL`. -/
def eduAtLeast (rL : Nat) (e : Option String) : Bool :=
  match e with
  | some t =>
    match levelRank t with
    | some rE => decide (rL ≤ rE)
    | none => false
  | none => false

/-- Spec-worded de-duplication keeping first occurrences, with the already
seen tags as accumulator. -/
def dedupFirstAux : List String → List String → List String
  | _, [] => []
  | seen, x :: xs =>
    if seen.contains x then dedupFirstAux seen xs
    else x :: dedupFirstAux (seen ++ [x]) xs

/-- Spec-worded de-duplication keeping first occurrences. -/
def dedupFirst (l : List String) : List String := dedupFirstAux [] l

/-- Spec-worded welfare tagger: split into tokens, map each through the
synonym table, de-duplicate keeping first occurrences; missing text gives
`[]`. -/
def welfareSpecTags : Option String → List String
  | none => []
  | some s => dedupFirst ((splitTokens s.data).map synLookup)

/-! ### Sample data for counterexamples and witnesses -/

/-- A raw row whose salary text contains no digit run. -/
def rowNoDigits : RawRow :=
  { pid := 1, salaryText := some "薪资面议", locationText := some "北京",
    educationText := some "本科", durationText := some "3个月",
    descriptionText := none, welfareText := none }

/-- A raw row with a well-formed two-bound salary text. -/
def rowGood : RawRow :=
  { pid := 2, salaryText := some "150-200元/天", locationText := some "上海-浦东新区",
    educationText := some "本科", durationText := some "3个月",
    descriptionText := some "熟悉Spark与SQL", welfareText := some "五险,双休,餐补" }

/-- A raw row with an odd salary sum, where floor and round differ. -/
def rowOddSum : RawRow :=
  { pid := 3, salaryText := some "150-201元/天", locationText := some "北京",
    educationText := some "本科", durationText := some "3个月",
    descriptionText := none, welfareText := none }

/-- A raw row whose location field is missing. -/
def rowNoLoc : RawRow :=
  { pid := 4, salaryText := some "100-120元/天", locationText := none,
    educationText := some "本科", durationText := some "3个月",
    descriptionText := none, welfareText := none }

/-- A cleaned posting whose raw education text standardizes to 本科 but is
not a canonical level name. -/
def pBachelorPlus : SPosting :=
  { pid := 7, city := "上海", edu := some "本科及以上", durationText := some "3个月",
    durationMonths := some 3, avgSalary := some 200, skills := [], welfare := [] }

/-- Cleaned postings carrying each of the five canonical education texts. -/
def pEduL0 : SPosting :=
  { pid := 10, city := "北京", edu := some "不限", durationText := some "3个月",
    durationMonths := some 3, avgSalary := some 100, skills := [], welfare := [] }

def pEduL1 : SPosting :=
  { pid := 11, city := "北京", edu := some "大专", durationText := some "3个月",
    durationMonths := some 3, avgSalary := some 110, skills := [], welfare := [] }

def pEduL2 : SPosting :=
  { pid := 12, city := "北京", edu := some "本科", durationText := some "3个月",
    durationMonths := some 3, avgSalary := some 120, skills := [], welfare := [] }

def pEduL3 : SPosting :=
  { pid := 13, city := "北京", edu := some "硕士", durationText := some "3个月",
    durationMonths := some 3, avgSalary := some 130, skills := [], welfare := [] }

def pEduL4 : SPosting :=
  { pid := 14, city := "北京", edu := some "博士", durationText := some "3个月",
    durationMonths := some 3, avgSalary := some 140, skills := [], welfare := [] }

/-! ### Helper lemmas -/

theorem sublist_of_ite_filter (c : Prop) [Decidable c] (l : List α) (p : α → Bool) :
    (if c then l else l.filter p).Sublist l := by
  split
  · exact List.Sublist.refl l
  · exact List.filter_sublist l

theorem sCityStep_sublist (cities : List String) (l : List SPosting) :
    (sCityStep cities l).Sublist l :=
  sublist_of_ite_filter _ _ _

theorem sEduStep_sublist (e : String) (l : List SPosting) :
    (sEduStep e l).Sublist l := by
  unfold sEduStep
  split
  · exact List.Sublist.refl l
  · split
    · exact List.filter_sublist l
    · exact List.Sublist.refl l

theorem sSalaryStep_sublist (lo hi : Nat) (l : List SPosting) :
    (sSalaryStep lo hi l).Sublist l :=
  List.filter_sublist l

theorem sSkillStep_sublist (req : List String) (l : List SPosting) :
    (sSkillStep req l).Sublist l :=
  sublist_of_ite_filter _ _ _

theorem sWelfareStep_sublist (prefs : List String) (l : List SPosting) :
    (sWelfareStep prefs l).Sublist l :=
  sublist_of_ite_filter _ _ _

theorem sTail_sublist (lo hi : Nat) (req prefs : List String) (l : List SPosting) :
    (sWelfareStep prefs (sSkillStep req (sSalaryStep lo hi l))).Sublist l :=
  ((sWelfareStep_sublist _ _).trans (sSkillStep_sublist _ _)).trans
    (sSalaryStep_sublist _ _ _)

theorem aSteps_sublist (cities edu dur : List String) (lo hi : Nat)
    (req prefs : List String) (df : List AppPosting) :
    (app_filtered df cities edu dur lo hi req prefs).Sublist df := by
  unfold app_filtered
  refine ((sublist_of_ite_filter _ _ _).trans ?_)
  refine ((sublist_of_ite_filter _ _ _).trans ?_)
  refine ((List.filter_sublist _).trans ?_)
  refine ((sublist_of_ite_filter _ _ _).trans ?_)
  refine ((sublist_of_ite_filter _ _ _).trans ?_)
  exact sublist_of_ite_filter _ _ _

theorem sCityStep_nil (l : List SPosting) : sCityStep [] l = l := rfl

theorem aCityStep_nil (l : List AppPosting) : aCityStep [] l = l := rfl

theorem sEduStep_all (l : List SPosting) : sEduStep "全部" l = l := by
  unfold sEduStep
  simp

theorem sSkillStep_nil (l : List SPosting) : sSkillStep [] l = l := rfl

theorem sWelfareStep_nil (l : List SPosting) : sWelfareStep [] l = l := rfl

theorem aEduStep_nil (l : List AppPosting) : aEduStep [] l = l := rfl

theorem aDurStep_nil (l : List AppPosting) : aDurStep [] l = l := rfl

theorem aSkillStep_nil (l : List AppPosting) : aSkillStep [] l = l := rfl

theorem aWelfareStep_nil (l : List AppPosting) : aWelfareStep [] l = l := rfl

theorem sSalaryStep_eq_self (lo hi : Nat) (l : List SPosting)
    (h : ∀ p ∈ l, ∃ s, p.avgSalary = some s ∧ lo ≤ s ∧ s ≤ hi) :
    sSalaryStep lo hi l = l := by
  unfold sSalaryStep
  refine List.filter_eq_self.mpr ?_
  intro p hp
  obtain ⟨s, hs, h1, h2⟩ := h p hp
  rw [hs]
  simp [h1, h2]

theorem aSalaryStep_eq_self (lo hi : Nat) (l : List AppPosting)
    (h : ∀ p ∈ l, lo ≤ p.avgSalary ∧ p.avgSalary ≤ hi) :
    aSalaryStep lo hi l = l := by
  unfold aSalaryStep
  refine List.filter_eq_self.mpr ?_
  intro p hp
  obtain ⟨h1, h2⟩ := h p hp
  simp [h1, h2]

theorem welfareLoop_eq (ts : List String) :
    ∀ acc, welfareLoop acc ts = acc ++ dedupFirstAux acc (ts.map synLookup) := by
  induction ts with
  | nil => intro acc; simp [welfareLoop, dedupFirstAux]
  | cons t ts ih =>
    intro acc
    simp only [welfareLoop, List.map_cons, dedupFirstAux]
    by_cases h : acc.contains (synLookup t) = true
    · simp only [h, if_true, ih]
    · simp only [eq_false_of_ne_true h, if_false, ih, if_neg, Bool.false_eq_true,
        List.append_assoc, List.singleton_append, List.cons_append, List.nil_append]

theorem dedupFirstAux_not_mem_seen (l seen : List String) :
    ∀ x ∈ dedupFirstAux seen l, x ∉ seen := by
  induction l generalizing seen with
  | nil => intro x hx; simp [dedupFirstAux] at hx
  | cons a as ih =>
    intro x hx
    simp only [dedupFirstAux] at hx
    by_cases h : seen.contains a = true
    · rw [if_pos h] at hx
      exact ih seen x hx
    · rw [if_neg h] at hx
      rcases List.mem_cons.mp hx with rfl | hx
      · intro hmem
        exact h (List.elem_iff.mpr hmem)
      · intro hmem
        exact ih (seen ++ [a]) x hx (List.mem_append_left _ hmem)

theorem dedupFirstAux_nodup (l : List String) :
    ∀ seen, (dedupFirstAux seen l).Nodup := by
  induction l with
  | nil => intro seen; simp [dedupFirstAux]
  | cons a as ih =>
    intro seen
    simp only [dedupFirstAux]
    by_cases h : seen.contains a = true
    · rw [if_pos h]; exact ih seen
    · rw [if_neg h]
      refine List.nodup_cons.mpr ⟨?_, ih (seen ++ [a])⟩
      intro hmem
      exact dedupFirstAux_not_mem_seen as (seen ++ [a]) a hmem
        (List.mem_append_right _ (List.mem_singleton.mpr rfl))

theorem dedupFirstAux_sublist (l : List String) :
    ∀ seen, (dedupFirstAux seen l).Sublist l := by
  induction l with
  | nil => intro seen; simp [dedupFirstAux]
  | cons a as ih =>
    intro seen
    simp only [dedupFirstAux]
    by_cases h : seen.contains a = true
    · rw [if_pos h]
      exact (ih seen).trans (List.sublist_cons_self a as)
    · rw [if_neg h]
      exact List.Sublist.cons₂ a (ih (seen ++ [a]))

theorem nat_half_floor (a b : Nat) :
    (a + b) / 2 = ⌊(((a : ℚ) + (b : ℚ)) / 2)⌋₊ := by
  have h : ((a : ℚ) + b) = ((a + b : Nat) : ℚ) := by push_cast; ring
  rw [h, show ((2 : ℚ)) = ((2 : Nat) : ℚ) by norm_num, Nat.floor_div_nat,
    Nat.floor_natCast]

theorem hierarchy_contains_eq (L : String) (rL : Nat)
    (hL : levelRank L = some rL) :
    L ≠ "全部" ∧ ∃ allowed, education_hierarchy L = some allowed ∧
      ∀ t : String, allowed.contains t =
        (match levelRank t with
         | some rE => decide (rL ≤ rE)
         | none => false) := by
  have hcase : (L = "不限" ∧ rL = 0) ∨ (L = "大专" ∧ rL = 1) ∨ (L = "本科" ∧ rL = 2) ∨
      (L = "硕士" ∧ rL = 3) ∨ (L = "博士" ∧ rL = 4) := by
    unfold levelRank at hL
    split_ifs at hL with h1 h2 h3 h4 h5
    · exact Or.inl ⟨h1, (Option.some.inj hL).symm⟩
    · exact Or.inr (Or.inl ⟨h2, (Option.some.inj hL).symm⟩)
    · exact Or.inr (Or.inr (Or.inl ⟨h3, (Option.some.inj hL).symm⟩))
    · exact Or.inr (Or.inr (Or.inr (Or.inl ⟨h4, (Option.some.inj hL).symm⟩)))
    · exact Or.inr (Or.inr (Or.inr (Or.inr ⟨h5, (Option.some.inj hL).symm⟩)))
  rcases hcase with ⟨rfl, rfl⟩ | ⟨rfl, rfl⟩ | ⟨rfl, rfl⟩ | ⟨rfl, rfl⟩ | ⟨rfl, rfl⟩
  all_goals refine ⟨by decide, _, rfl, ?_⟩
  all_goals intro t
  all_goals unfold levelRank
  all_goals split_ifs with g1 g2 g3 g4 g5
  all_goals
    first
      | (subst_vars; rfl)
      | simp [List.contains, List.elem, beq_false_of_ne g1, beq_false_of_ne g2,
          beq_false_of_ne g3, beq_false_of_ne g4, beq_false_of_ne g5]

/-! ### Claim C1: salary parsing -/

/-- C1 counterexample: on the salary text `"150-201元/天"` both parsers
return 175, the floor of the mean, while the round of the mean of the first
two digit runs is 176; and a posting whose salary text has no digit run is
retained (with an undefined salary) by the shixiseng normalizer instead of
being excluded from the cleaned set. -/
theorem C1_counterexample :
    extract_avg_salary (some "150-201元/天") = some 175 ∧
    appAvgSalary (some "150-201元/天") = 175 ∧
    round (((150 : ℚ) + 201) / 2) = 176 ∧
    (175 : ℤ) ≠ 176 ∧
    (load_and_clean_dataS [rowNoDigits]).map SPosting.avgSalary = [none] := by
  refine ⟨by decide, by decide, ?_, by decide, by decide⟩
  norm_num [round_eq]

/-- C1 amended: for every salary text, two or more digit runs give the
floor (not the round) of the mean of the first two runs in both parser
variants; exactly one run gives that run's value; with no digit run the
posting is excluded by the app-variant normalizer, while the
shixiseng-variant normalizer retains it with an undefined avg_salary. -/
theorem C1_salary_parsing :
    (∀ (s : String) (a b : Nat) (rest : List Nat),
        digitRuns s.data = a :: b :: rest →
        extract_avg_salary (some s) = some ⌊(((a : ℚ) + (b : ℚ)) / 2)⌋₊ ∧
        appAvgSalary (some s) = ⌊(((a : ℚ) + (b : ℚ)) / 2)⌋₊) ∧
    (∀ (s : String) (a : Nat), digitRuns s.data = [a] →
        extract_avg_salary (some s) = some a ∧ appAvgSalary (some s) = a) ∧
    (∀ r : RawRow, digitRuns (pdStr r.salaryText).data = [] →
        load_and_clean_dataApp [r] = [] ∧
        (load_and_clean_dataS [r]).map SPosting.avgSalary = [none]) := by
  refine ⟨?_, ?_, ?_⟩
  · intro s a b rest h
    constructor
    · simp only [extract_avg_salary]
      rw [h, ← nat_half_floor]
    · simp only [appAvgSalary, parse_salary, pdStr]
      rw [h, ← nat_half_floor]
  · intro s a h
    constructor
    · simp only [extract_avg_salary]
      rw [h]
    · simp only [appAvgSalary, parse_salary, pdStr]
      rw [h]
      show (a + a) / 2 = a
      omega
  · intro r h
    have hz : appAvgSalary r.salaryText = 0 := by
      simp only [appAvgSalary, parse_salary]
      rw [h]
    constructor
    · unfold load_and_clean_dataApp
      simp [List.filter, cleanRowApp, hz]
    · cases hr : r.salaryText with
      | none => simp [load_and_clean_dataS, cleanRowS, extract_avg_salary, hr]
      | some s =>
        rw [hr] at h
        simp only [pdStr] at h
        simp [load_and_clean_dataS, cleanRowS, extract_avg_salary, hr, h]

/-- C1 witness: the amended statement instantiated at concrete inputs. -/
theorem C1_salary_parsing_witness :
    extract_avg_salary (some "150-200元/天") = some ⌊(((150 : ℚ) + (200 : ℚ)) / 2)⌋₊ ∧
    extract_avg_salary (some "每天200元") = some 200 ∧
    load_and_clean_dataApp [rowNoDigits] = [] :=
  ⟨(C1_salary_parsing.1 "150-200元/天" 150 200 [] (by decide)).1,
    (C1_salary_parsing.2.1 "每天200元" 200 (by decide)).1,
    (C1_salary_parsing.2.2 rowNoDigits (by decide)).1⟩

/-! ### Claim C2: validity invariant of the cleaned datasets -/

/-- C2 counterexample: the shixiseng normalizer retains the posting of a
row whose salary text has no digit run, so its cleaned dataset contains a
posting without a positive avg_salary. -/
theorem C2_counterexample :
    load_and_clean_dataS [rowNoDigits] =
      [{ pid := 1, city := "北京", edu := some "本科", durationText := some "3个月",
         durationMonths := some 3, avgSalary := none, skills := [], welfare := [] }] := by
  decide

/-- C2 amended: every posting retained by the app-variant normalizer has a
positive avg_salary and a non-empty city; the shixiseng-variant normalizer
applies no validity filter and keeps one posting per input row. -/
theorem C2_validity_invariant :
    (∀ (rows : List RawRow) (p : AppPosting),
        p ∈ load_and_clean_dataApp rows → 0 < p.avgSalary ∧ p.city ≠ "") ∧
    (∀ rows : List RawRow, (load_and_clean_dataS rows).length = rows.length) := by
  constructor
  · intro rows p hp
    unfold load_and_clean_dataApp at hp
    have h := List.of_mem_filter hp
    rw [Bool.and_eq_true] at h
    refine ⟨of_decide_eq_true h.1, ?_⟩
    have h2 : (p.city == "") = false := by
      rw [← Bool.not_eq_true']
      exact h.2
    exact beq_eq_false_iff_ne.mp h2
  · intro rows
    simp [load_and_clean_dataS]

/-- C2 witness: the amended invariant at a concrete cleaned posting. -/
theorem C2_validity_invariant_witness :
    0 < (cleanRowApp rowGood).avgSalary ∧ (cleanRowApp rowGood).city ≠ "" :=
  C2_validity_invariant.1 [rowGood] (cleanRowApp rowGood) (by decide)

/-! ### Claim C3: the filter engine is not total -/

/-- C3: `"长期"` survives duration cleaning unchanged, so it is offered as
a duration option, and the shixiseng filter engine evaluated at that
option raises (modelled as an error) instead of returning a result. -/
theorem C3_duration_raises :
    clean_duration (some "长期") = some "长期" ∧
    filter_data [cleanRowS rowGood] [] "全部" "长期" 0 1000 [] [] =
      Except.error "IndexError: list index out of range" := by
  exact ⟨by decide, rfl⟩

/-! ### Claim C4: empty criteria -/

/-- C4 counterexample: a cleaned shixiseng collection containing a posting
with an undefined avg_salary is not returned whole by the filter engine
under empty criteria spanning the observed salary range (175 to 175, the
only defined salary). -/
theorem C4_counterexample :
    (load_and_clean_dataS [rowGood, rowNoDigits]).length = 2 ∧
    (cleanRowS rowGood).avgSalary = some 175 ∧
    (cleanRowS rowNoDigits).avgSalary = none ∧
    filter_data (load_and_clean_dataS [rowGood, rowNoDigits]) []
        "全部" "全部" 175 175 [] [] = Except.ok [cleanRowS rowGood] := by
  refine ⟨by decide, by decide, by decide, rfl⟩

/-- C4 amended: with empty criteria on every axis the filter engines
return the full collection unchanged provided every posting's avg_salary
is defined and lies in the selected range (as the observed min-to-max
range does); postings with an undefined avg_salary are dropped by the
always-on salary clause. -/
theorem C4_empty_criteria_identity :
    (∀ (df : List SPosting) (lo hi : Nat),
        (∀ p ∈ df, ∃ s, p.avgSalary = some s ∧ lo ≤ s ∧ s ≤ hi) →
        filter_data df [] "全部" "全部" lo hi [] [] = Except.ok df) ∧
    (∀ (df : List AppPosting) (lo hi : Nat),
        (∀ p ∈ df, lo ≤ p.avgSalary ∧ p.avgSalary ≤ hi) →
        app_filtered df [] [] [] lo hi [] [] = df) := by
  constructor
  · intro df lo hi h
    have e : filter_data df [] "全部" "全部" lo hi [] [] =
        Except.ok (sWelfareStep [] (sSkillStep [] (sSalaryStep lo hi
          (sEduStep "全部" (sCityStep [] df))))) := rfl
    rw [e, sCityStep_nil, sEduStep_all, sSalaryStep_eq_self lo hi df h,
      sSkillStep_nil, sWelfareStep_nil]
  · intro df lo hi h
    have e : app_filtered df [] [] [] lo hi [] [] =
        aWelfareStep [] (aSkillStep [] (aSalaryStep lo hi
          (aDurStep [] (aEduStep [] (aCityStep [] df))))) := rfl
    rw [e, aCityStep_nil, aEduStep_nil, aDurStep_nil,
      aSalaryStep_eq_self lo hi df h, aSkillStep_nil, aWelfareStep_nil]

/-- C4 witness: the amended identity at a concrete collection. -/
theorem C4_empty_criteria_identity_witness :
    filter_data [pEduL2] [] "全部" "全部" 120 120 [] [] = Except.ok [pEduL2] := by
  refine C4_empty_criteria_identity.1 [pEduL2] 120 120 ?_
  intro p hp
  rcases List.mem_singleton.mp hp with rfl
  exact ⟨120, rfl, le_refl 120, le_refl 120⟩

/-! ### Claim C5: the filter output is a subsequence of its input -/

/-- C5: whenever the shixiseng filter engine returns a result, that result
is a subsequence of the input collection (hence each output id occurs in
the input, in the input's relative order), and the app filter engine's
output is always such a subsequence. -/
theorem C5_output_subsequence :
    (∀ (df : List SPosting) (cities : List String) (education duration : String)
        (lo hi : Nat) (req prefs : List String) (out : List SPosting),
        filter_data df cities education duration lo hi req prefs = Except.ok out →
        out.Sublist df ∧ (out.map SPosting.pid).Sublist (df.map SPosting.pid)) ∧
    (∀ (df : List AppPosting) (cities edu dur : List String) (lo hi : Nat)
        (req prefs : List String),
        (app_filtered df cities edu dur lo hi req prefs).Sublist df ∧
        ((app_filtered df cities edu dur lo hi req prefs).map AppPosting.pid).Sublist
          (df.map AppPosting.pid)) := by
  constructor
  · intro df cities education duration lo hi req prefs out h
    have hsub : out.Sublist df := by
      simp only [filter_data] at h
      split at h
      · injection h with h2
        subst h2
        exact (sTail_sublist _ _ _ _ _).trans
          ((sEduStep_sublist _ _).trans (sCityStep_sublist _ _))
      · split at h
        · cases h
        · injection h with h2
          subst h2
          exact (sTail_sublist _ _ _ _ _).trans
            ((List.filter_sublist _).trans
              ((sEduStep_sublist _ _).trans (sCityStep_sublist _ _)))
    exact ⟨hsub, hsub.map _⟩
  · intro df cities edu dur lo hi req prefs
    have hsub := aSteps_sublist cities edu dur lo hi req prefs df
    exact ⟨hsub, hsub.map _⟩

/-- C5 witness: the subsequence law at a concrete filtered collection. -/
theorem C5_output_subsequence_witness :
    ([pEduL2] : List SPosting).Sublist [pEduL2, pEduL0] :=
  (C5_output_subsequence.1 [pEduL2, pEduL0] [] "本科" "全部" 0 1000 [] []
    [pEduL2] rfl).1

/-! ### Claim C6: hierarchical education filtering -/

/-- C6 counterexample: the education text `"本科及以上"` standardizes to
the bachelor level `"本科"`, yet selecting `"本科"` excludes a posting
carrying that raw text, because the hierarchy clause matches the raw text
exactly against the canonical level names. -/
theorem C6_counterexample :
    standardize_education (some "本科及以上") = "本科" ∧
    filter_data [pBachelorPlus] [] "本科" "全部" 0 1000 [] [] =
      Except.ok [] := by
  exact ⟨by decide, rfl⟩

/-- C6 amended: selecting a canonical level of rank `rL` admits exactly
the postings whose raw education text is itself a canonical level name of
rank at least `rL` in the ordering 不限 < 大专 < 本科 < 硕士 < 博士
(any other raw text is excluded); in particular the five-canonical-level
collection filtered at `"本科"` yields exactly the 本科, 硕士 and 博士
postings. -/
theorem C6_education_threshold :
    (∀ (df : List SPosting) (L : String) (rL : Nat) (lo hi : Nat),
        levelRank L = some rL →
        (∀ p ∈ df, ∃ s, p.avgSalary = some s ∧ lo ≤ s ∧ s ≤ hi) →
        filter_data df [] L "全部" lo hi [] [] =
          Except.ok (df.filter (fun p => eduAtLeast rL p.edu))) ∧
    filter_data [pEduL0, pEduL1, pEduL2, pEduL3, pEduL4] [] "本科" "全部"
        0 1000 [] [] = Except.ok [pEduL2, pEduL3, pEduL4] := by
  constructor
  · intro df L rL lo hi hL hsal
    obtain ⟨hne, allowed, hall, hcont⟩ := hierarchy_contains_eq L rL hL
    have e : filter_data df [] L "全部" lo hi [] [] =
        Except.ok (sWelfareStep [] (sSkillStep [] (sSalaryStep lo hi
          (sEduStep L (sCityStep [] df))))) := rfl
    rw [e, sCityStep_nil, sSkillStep_nil, sWelfareStep_nil]
    have e2 : sEduStep L df = df.filter (fun p =>
        match p.edu with
        | some t => allowed.contains t
        | none => false) := by
      unfold sEduStep
      rw [if_neg hne, hall]
    rw [e2, sSalaryStep_eq_self lo hi _
      (fun p hp => hsal p (List.mem_of_mem_filter hp))]
    congr 1
    refine List.filter_congr ?_
    intro p _
    cases hpe : p.edu with
    | none => rfl
    | some t =>
      show allowed.contains t = eduAtLeast rL (some t)
      rw [hcont t]
      rfl
  · rfl

/-- C6 witness: the amended statement at a concrete collection. -/
theorem C6_education_threshold_witness :
    filter_data [pEduL2] [] "本科" "全部" 0 1000 [] [] =
      Except.ok ([pEduL2].filter (fun p => eduAtLeast 2 p.edu)) := by
  refine C6_education_threshold.1 [pEduL2] "本科" 2 0 1000 (by decide) ?_
  intro p hp
  rcases List.mem_singleton.mp hp with rfl
  exact ⟨120, rfl, by norm_num, by norm_num⟩

/-! ### Claim C7: welfare OR and AND modes -/

/-- A cleaned app posting carrying one welfare tag, for the witness. -/
def pWelfareApp : AppPosting :=
  { pid := 20, city := "北京", eduClass := "本科", durClass := "3个月",
    avgSalary := 100, skills := [], welfare := ["房补"] }

/-- C7: with a non-empty preference set the app welfare clause keeps a
posting exactly when it has at least one requested tag (OR mode) and the
shixiseng clause exactly when it has all requested tags (AND mode); an
empty preference set leaves both collections unchanged. -/
theorem C7_welfare_modes :
    (∀ (prefs : List String) (l : List AppPosting) (p : AppPosting), prefs ≠ [] →
        (p ∈ aWelfareStep prefs l ↔ p ∈ l ∧ ∃ w ∈ prefs, w ∈ p.welfare)) ∧
    (∀ (prefs : List String) (l : List SPosting) (p : SPosting), prefs ≠ [] →
        (p ∈ sWelfareStep prefs l ↔ p ∈ l ∧ ∀ w ∈ prefs, w ∈ p.welfare)) ∧
    (∀ l : List AppPosting, aWelfareStep [] l = l) ∧
    (∀ l : List SPosting, sWelfareStep [] l = l) := by
  refine ⟨?_, ?_, fun l => rfl, fun l => rfl⟩
  · intro prefs l p hne
    unfold aWelfareStep
    rw [if_neg (by simp [List.isEmpty_iff, hne])]
    simp [List.mem_filter, List.any_eq_true, List.elem_iff]
  · intro prefs l p hne
    unfold sWelfareStep
    rw [if_neg (by simp [List.isEmpty_iff, hne])]
    simp [List.mem_filter, List.all_eq_true, List.elem_iff]

/-- C7 witness: both modes at concrete postings and preference sets. -/
theorem C7_welfare_modes_witness :
    (pWelfareApp ∈ aWelfareStep ["房补", "餐补"] [pWelfareApp] ↔
      pWelfareApp ∈ [pWelfareApp] ∧ ∃ w ∈ ["房补", "餐补"], w ∈ pWelfareApp.welfare) ∧
    (pEduL2 ∈ sWelfareStep ["房补"] [pEduL2] ↔
      pEduL2 ∈ [pEduL2] ∧ ∀ w ∈ ["房补"], w ∈ pEduL2.welfare) :=
  ⟨C7_welfare_modes.1 ["房补", "餐补"] [pWelfareApp] pWelfareApp (by decide),
    C7_welfare_modes.2.1 ["房补"] [pEduL2] pEduL2 (by decide)⟩

/-! ### Claim C8: the welfare tagger -/

/-- C8: the source welfare tagger equals the spec-worded pipeline
(tokenize, synonym-map, de-duplicate keeping first occurrences); its
output never contains duplicates and is a subsequence of the mapped token
list (so first-occurrence order is preserved); missing text gives `[]`. -/
theorem C8_welfare_tagger :
    (∀ s : Option String, extract_welfare_tags s = welfareSpecTags s) ∧
    (∀ s : Option String, (extract_welfare_tags s).Nodup) ∧
    (∀ t : String, (extract_welfare_tags (some t)).Sublist
        ((splitTokens t.data).map synLookup)) ∧
    extract_welfare_tags none = [] := by
  have key : ∀ s : String, extract_welfare_tags (some s) =
      dedupFirstAux [] ((splitTokens s.data).map synLookup) := by
    intro s
    simp only [extract_welfare_tags]
    rw [welfareLoop_eq]
    simp
  refine ⟨?_, ?_, ?_, rfl⟩
  · intro s
    cases s with
    | none => rfl
    | some t => rw [key t]; rfl
  · intro s
    cases s with
    | none => exact List.nodup_nil
    | some t => rw [key t]; exact dedupFirstAux_nodup _ _
  · intro t
    rw [key t]
    exact dedupFirstAux_sublist _ _

/-! ### Claim C9: the city filter -/

/-- C9: in both engines, a posting is in the city clause's output exactly
when it is in the input and either no city is selected (empty selection
imposes no constraint) or its city belongs to the selection; the empty
selection leaves the collection unchanged. -/
theorem C9_city_filter :
    (∀ (sel : List String) (l : List SPosting) (p : SPosting),
        p ∈ sCityStep sel l ↔ p ∈ l ∧ (sel = [] ∨ p.city ∈ sel)) ∧
    (∀ (sel : List String) (l : List AppPosting) (p : AppPosting),
        p ∈ aCityStep sel l ↔ p ∈ l ∧ (sel = [] ∨ p.city ∈ sel)) ∧
    (∀ l : List SPosting, sCityStep [] l = l) ∧
    (∀ l : List AppPosting, aCityStep [] l = l) := by
  refine ⟨?_, ?_, fun l => rfl, fun l => rfl⟩
  · intro sel l p
    rcases eq_or_ne sel [] with rfl | hne
    · simp [sCityStep]
    · unfold sCityStep
      rw [if_neg (by simp [List.isEmpty_iff, hne])]
      simp [List.mem_filter, List.elem_iff, hne]
  · intro sel l p
    rcases eq_or_ne sel [] with rfl | hne
    · simp [aCityStep]
    · unfold aCityStep
      rw [if_neg (by simp [List.isEmpty_iff, hne])]
      simp [List.mem_filter, List.elem_iff, hne]

/-! ### Claim C10: missing location stringifies to "nan" -/

/-- C10: in the app normalizer a row with a missing location is kept (its
salary permitting): the city column stringifies the missing value to the
non-empty text `"nan"`, which passes the validity filter. -/
theorem C10_missing_location (r : RawRow) (hloc : r.locationText = none)
    (hsal : 0 < appAvgSalary r.salaryText) :
    load_and_clean_dataApp [r] = [cleanRowApp r] ∧
    (cleanRowApp r).city = "nan" ∧ ("nan" : String) ≠ "" := by
  have hc : (cleanRowApp r).city = "nan" := by
    show appCity r.locationText = "nan"
    rw [hloc]
    decide
  refine ⟨?_, hc, by decide⟩
  have hp : (decide (0 < (cleanRowApp r).avgSalary) &&
      !((cleanRowApp r).city == "")) = true := by
    rw [hc]
    simp only [cleanRowApp]
    simp [hsal]
  simp [load_and_clean_dataApp, List.filter, hp]

/-- C10 witness: a concrete row with a missing location is retained with
city `"nan"`. -/
theorem C10_missing_location_witness :
    load_and_clean_dataApp [rowNoLoc] = [cleanRowApp rowNoLoc] ∧
    (cleanRowApp rowNoLoc).city = "nan" ∧ ("nan" : String) ≠ "" :=
  C10_missing_location rowNoLoc rfl (by decide)

end JobData
